import Mathlib

/-!
Shallow embedding of the document-ingestion layer of neosca-gui
(`src/neosca_gui/ng_io.py`, class SCAIO), together with theorems settling
the specification claims about it.

Conventions of the embedding:
* The filesystem visible to `os.path`, `open`, `glob` and `zipfile` is a
  `FileSystem` value passed explicitly; it is static during one call.
* Python exceptions are the `PyExn` type; a function that can raise, call
  `sys.exit`, or return normally yields an `Outcome`.
* `logging` calls are collected in an output `List LogEntry`.
* The codecs machinery (`str.decode` / `open(encoding=...)`) and
  charset_normalizer's `detect` are external libraries, modelled as the
  fields of a `Codec` value; `zipfile` member extraction and
  `xml.etree.ElementTree` parsing are likewise modelled by `ZipLib` /
  `XmlLib` values, while the tree traversal the source performs
  (`iter`, `findall`, `itertext`) is implemented concretely on `Xml`.
* Python strings are Lean `String`s; the string helpers used by the
  source (`str.split`, `str.startswith`, `str.endswith`, `str.replace`,
  `os.path.basename`) are implemented on the character list so that they
  evaluate inside the kernel.
-/

/-- Byte strings (contents of files opened in binary mode). -/
abbrev Bytes := List Nat

/-- Levels of the `logging` module used by the source. -/
inductive LogLevel where
  | debug
  | info
  | warning
  | critical
deriving DecidableEq

/-- One emitted log record: its level and its message. -/
structure LogEntry where
  level : LogLevel
  msg : String
deriving DecidableEq

/-- Python exceptions that the modelled code can raise or catch. -/
inductive PyExn where
  | fileNotFoundError
  | unicodeDecodeError
  | permissionError
  | badZipOrKeyError
  | xmlParseError
deriving DecidableEq

/-- Result of running a piece of the modelled code: a normal return, a
process termination via `sys.exit n` (preceded by its logging), or a
propagating Python exception. -/
inductive Outcome (α : Type) where
  | ok : α → Outcome α
  | exit : Nat → Outcome α
  | raised : PyExn → Outcome α
deriving DecidableEq

/-- Map over the normal-return value of an `Outcome`. -/
def Outcome.map {α β : Type} (f : α → β) : Outcome α → Outcome β
  | .ok a => .ok (f a)
  | .exit n => .exit n
  | .raised e => .raised e

/-- Result of `open(path, "w")` on an existing path: success, or a
`PermissionError` (the only exception the source catches there). -/
inductive OpenWResult where
  | ok
  | permissionError
deriving DecidableEq

/-- The filesystem as seen through `os.path`, `open`, and `glob`.
`readBytes p = none` means the path cannot be opened for reading
(`FileNotFoundError`); `glob` gives the expansion `glob.glob` returns for
a pattern; `openW` tells whether an `open(p, "w")` probe on an existing
path succeeds or raises `PermissionError`. -/
structure FileSystem where
  isFile : String → Bool
  isDir : String → Bool
  pathExists : String → Bool
  glob : String → List String
  getsize : String → Nat
  getmtime : String → Int
  readBytes : String → Option Bytes
  openW : String → OpenWResult

/-- Model of `os.path.getsize`: raises `FileNotFoundError` on a missing
path, otherwise returns the size. -/
def os_path_getsize (fs : FileSystem) (p : String) : Except PyExn Nat :=
  if fs.pathExists p then .ok (fs.getsize p) else .error .fileNotFoundError

/-- Model of `os.path.getmtime`: raises `FileNotFoundError` on a missing
path, otherwise returns the modification time. -/
def os_path_getmtime (fs : FileSystem) (p : String) : Except PyExn Int :=
  if fs.pathExists p then .ok (fs.getmtime p) else .error .fileNotFoundError

/-- The platform path separator (`os.path.sep`); the embedding uses the
POSIX value. -/
def os_path_sep : String := "/"

/-- Python `str.split(sep)` for a one-character separator, on character
lists: `chSplit '.' "a.txt" = ["a", "txt"]`, `chSplit '.' "" = [""]`. -/
def chSplit (sep : Char) : List Char → List (List Char)
  | [] => [[]]
  | c :: cs =>
    let r := chSplit sep cs
    if c = sep then [] :: r
    else
      match r with
      | [] => [[c]]
      | g :: gs => (c :: g) :: gs

/-- Python `s.startswith(t)`. -/
def pyStartsWith (s t : String) : Bool := t.data.isPrefixOf s.data

/-- Python `s.endswith(t)`. -/
def pyEndsWith (s t : String) : Bool := t.data.isSuffixOf s.data

/-- Fuel-driven worker for `pyReplace`; the fuel is the length of the
scanned list, so it never runs out. -/
def chReplace (pat sub : List Char) : Nat → List Char → List Char
  | _, [] => []
  | 0, l => l
  | Nat.succ fuel, c :: cs =>
    if !pat.isEmpty && pat.isPrefixOf (c :: cs) then
      sub ++ chReplace pat sub fuel (List.drop (pat.length - 1) cs)
    else c :: chReplace pat sub fuel cs

/-- Python `s.replace(pat, sub)` (leftmost, non-overlapping), for a
nonempty pattern. -/
def pyReplace (s pat sub : String) : String :=
  String.mk (chReplace pat.data sub.data s.data.length s.data)

/-- Model of `os.path.basename`: the part after the last separator. -/
def os_path_basename (p : String) : String :=
  String.mk ((chSplit '/' p.data).getLastD [])

/-- The class attribute `SUPPORTED_EXTENSIONS = ("txt", "docx", "odt")`
of SCAIO. -/
def SUPPORTED_EXTENSIONS : List String := ["txt", "docx", "odt"]

/-- Classmethod `suffix` of SCAIO: `*_, extension = path.split(".")`,
i.e. the substring after the last dot (the whole name when there is no
dot). -/
def suffix (path : String) : String :=
  String.mk ((chSplit '.' path.data).getLastD [])

/-- Modelled from the spec: `SCAProcedureResult` lives in the module
`neosca_gui.ng_util`, which is not part of the sources; per the spec it
is the pair (ok flag, optional human-readable message). -/
abbrev SCAProcedureResult := Bool × Option String

/-- The mutable state of a SCAIO instance: `self.previous_encoding`,
initialized to `"utf-8"` in `__init__`. -/
structure SCAIOState where
  previous_encoding : String
deriving DecidableEq

/-- The `previous_encoding` value set by `__init__`. -/
def SCAIOState.init : SCAIOState := { previous_encoding := "utf-8" }

/-- External text-codec machinery. `decode enc b` models decoding byte
content `b` as text with encoding `enc` (`none` = the locale default used
by `open(mode="r")` without an encoding): `none` results model
`UnicodeDecodeError` (or a failing codec lookup). `detect` models
`charset_normalizer.detect(bytes)["encoding"]`. -/
structure Codec where
  decode : Option String → Bytes → Option String
  detect : Bytes → Option String

/-- An `xml.etree.ElementTree` element: tag, `.text` (text before the
first child), `.tail` (text after this element inside its parent), and
the list of child elements. -/
inductive Xml where
  | mk (tag : String) (text : Option String) (tail : Option String) (children : List Xml)

/-- Tag of an element. -/
def Xml.tag : Xml → String
  | .mk t _ _ _ => t

/-- Text before the first child (`Element.text`). -/
def Xml.text : Xml → Option String
  | .mk _ tx _ _ => tx

/-- Text after the element inside its parent (`Element.tail`). -/
def Xml.tail : Xml → Option String
  | .mk _ _ tl _ => tl

/-- Child elements. -/
def Xml.children : Xml → List Xml
  | .mk _ _ _ cs => cs

mutual
/-- `Element.iter(tag)`: the element itself when its tag matches,
followed by the matching elements of every descendant, in document
order. -/
def Xml.iter (tag : String) : Xml → List Xml
  | .mk t tx tl cs =>
    (if t = tag then [Xml.mk t tx tl cs] else []) ++ Xml.iterList tag cs

/-- `Element.iter(tag)` mapped over a list of sibling elements. -/
def Xml.iterList (tag : String) : List Xml → List Xml
  | [] => []
  | c :: cs => Xml.iter tag c ++ Xml.iterList tag cs
end

mutual
/-- `Element.itertext()`, concatenated: the element's own text, then for
each child its `itertext` followed by the child's tail. -/
def Xml.itertext : Xml → String
  | .mk _ tx _ cs => tx.getD "" ++ Xml.itertextList cs

/-- Concatenated `itertext` plus tail over a list of sibling
elements. -/
def Xml.itertextList : List Xml → String
  | [] => ""
  | c :: cs => Xml.itertext c ++ c.tail.getD "" ++ Xml.itertextList cs
end

/-- `Element.findall(pattern)` for the pattern shapes the source uses: a
pattern starting with `.//` selects every descendant (excluding the root
itself) whose tag is the rest of the pattern, in document order; a bare
tag selects the matching direct children. -/
def Xml.findall (x : Xml) (pattern : String) : List Xml :=
  if pyStartsWith pattern ".//" then
    Xml.iterList (String.mk (pattern.data.drop 3)) x.children
  else
    x.children.filter (fun c => c.tag = String.mk pattern.data)

/-- External zip machinery: `zip.read b member` models
`zipfile.ZipFile(path).read(member)` applied to a file whose byte content
is `b`; an error models `BadZipFile` (not an archive) or `KeyError`
(member absent). -/
structure ZipLib where
  read : Bytes → String → Except PyExn Bytes

/-- External XML parsing: `fromstring` models
`xml.etree.ElementTree.XML` / `fromstring`; an error models
`xml.etree.ElementTree.ParseError` on malformed input. -/
structure XmlLib where
  fromstring : Bytes → Except PyExn Xml

/-- The class attribute `DOCX_NAMESPACE` of SCAIO. -/
def DOCX_NAMESPACE : String :=
  "\x7bhttp://schemas.openxmlformats.org/wordprocessingml/2006/main\x7d"

/-- The class attribute `DOCX_PARA` of SCAIO. -/
def DOCX_PARA : String := DOCX_NAMESPACE ++ "p"

/-- The class attribute `DOCX_TEXT` of SCAIO. -/
def DOCX_TEXT : String := DOCX_NAMESPACE ++ "t"

/-- The class attribute `ODT_NAMESPACE` of SCAIO. -/
def ODT_NAMESPACE : String :=
  ".//\x7burn:oasis:names:tc:opendocument:xmlns:text:1.0\x7d"

/-- The class attribute `ODT_PARA` of SCAIO. -/
def ODT_PARA : String := ODT_NAMESPACE ++ "p"

/-- Method `read_docx` of SCAIO: open the path as a zip archive
(`FileNotFoundError` propagates when the path is missing), read
`word/document.xml`, parse it, and join the text runs of each paragraph
with newlines.  Archive and parse failures propagate. -/
def read_docx (fs : FileSystem) (zip : ZipLib) (xml : XmlLib) (path : String) :
    Outcome String × List LogEntry :=
  match fs.readBytes path with
  | none => (.raised .fileNotFoundError, [])
  | some fileBytes =>
    match zip.read fileBytes "word/document.xml" with
    | .error e => (.raised e, [])
    | .ok xml_content =>
      match xml.fromstring xml_content with
      | .error e => (.raised e, [])
      | .ok tree =>
        let paragraphs := (tree.iter DOCX_PARA).map (fun paragraph =>
          String.join (((paragraph.iter DOCX_TEXT).filterMap Xml.text).filter
            (fun t => t ≠ "")))
        (.ok (String.intercalate "\n" paragraphs), [])

/-- Method `read_odt` of SCAIO: open the path as a zip archive
(`FileNotFoundError` propagates when the path is missing), read
`content.xml`, parse it, and join the `itertext` of every ODT paragraph
node with newlines.  Archive and parse failures propagate. -/
def read_odt (fs : FileSystem) (zip : ZipLib) (xml : XmlLib) (path : String) :
    Outcome String × List LogEntry :=
  match fs.readBytes path with
  | none => (.raised .fileNotFoundError, [])
  | some fileBytes =>
    match zip.read fileBytes "content.xml" with
    | .error e => (.raised e, [])
    | .ok xml_content =>
      match xml.fromstring xml_content with
      | .error e => (.raised e, [])
      | .ok root =>
        let paragraphs := root.findall ODT_PARA
        (.ok (String.intercalate "\n" (paragraphs.map Xml.itertext)), [])

/-- Method `_read_txt` of SCAIO for mode `"r"`: open the path and decode
its contents with the given encoding.  A missing file logs a critical
message and calls `sys.exit(1)`; a decode failure raises
`UnicodeDecodeError` (not caught here). -/
def _read_txt_r (fs : FileSystem) (codec : Codec) (path : String)
    (encoding : Option String) : Outcome String × List LogEntry :=
  match fs.readBytes path with
  | none => (.exit 1, [⟨.critical, path ++ " does not exist."⟩])
  | some b =>
    match codec.decode encoding b with
    | none => (.raised .unicodeDecodeError, [])
    | some content => (.ok content, [])

/-- Method `_read_txt` of SCAIO for mode `"rb"`: open the path in binary
mode and return its bytes.  A missing file logs a critical message and
calls `sys.exit(1)`. -/
def _read_txt_rb (fs : FileSystem) (path : String) :
    Outcome Bytes × List LogEntry :=
  match fs.readBytes path with
  | none => (.exit 1, [⟨.critical, path ++ " does not exist."⟩])
  | some b => (.ok b, [])

/-- Method `read_txt` of SCAIO.  With `is_guess_encoding = false`, a
plain utf-8 read.  Otherwise: try `previous_encoding`; on
`UnicodeDecodeError`, reread in binary mode, run detection; detection
failure yields `None` with a warning; on detection success
`previous_encoding` is set to the detected name and the bytes are decoded
with it (this last decode is not guarded, so its failure propagates).
Returns (outcome, updated state, logs). -/
def read_txt (st : SCAIOState) (fs : FileSystem) (codec : Codec) (path : String)
    (is_guess_encoding : Bool) : Outcome (Option String) × SCAIOState × List LogEntry :=
  if is_guess_encoding = false then
    match _read_txt_r fs codec path (some "utf-8") with
    | (.ok content, logs) => (.ok (some content), st, logs)
    | (.exit n, logs) => (.exit n, st, logs)
    | (.raised e, logs) => (.raised e, st, logs)
  else
    let log1 : LogEntry :=
      ⟨.info, "Attempting to read " ++ path ++ " with " ++ st.previous_encoding ++ " encoding..."⟩
    match _read_txt_r fs codec path (some st.previous_encoding) with
    | (.ok content, logs) => (.ok (some content), st, log1 :: logs)
    | (.exit n, logs) => (.exit n, st, log1 :: logs)
    | (.raised .unicodeDecodeError, logs) =>
      let log2 : LogEntry := ⟨.info, "Attempt failed. Reading " ++ path ++ " in binary mode..."⟩
      match _read_txt_rb fs path with
      | (.ok bytes_, logs2) =>
        let log3 : LogEntry := ⟨.info, "Guessing the encoding of the byte string..."⟩
        match codec.detect bytes_ with
        | none =>
          (.ok none, st,
            log1 :: logs ++ log2 :: logs2 ++
              [log3, ⟨.warning, path ++ " is of unsupported file type. Skipped."⟩])
        | some encoding =>
          let st' : SCAIOState := { previous_encoding := encoding }
          let log4 : LogEntry := ⟨.info, "Decoding the byte string with " ++ encoding ++ " encoding..."⟩
          match codec.decode (some encoding) bytes_ with
          | none =>
            (.raised .unicodeDecodeError, st', log1 :: logs ++ log2 :: logs2 ++ [log3, log4])
          | some content =>
            (.ok (some content), st', log1 :: logs ++ log2 :: logs2 ++ [log3, log4])
      | (.exit n, logs2) => (.exit n, st, log1 :: logs ++ log2 :: logs2)
      | (.raised e, logs2) => (.raised e, st, log1 :: logs ++ log2 :: logs2)
    | (.raised e, logs) => (.raised e, st, log1 :: logs)

/-- Method `read_file` of SCAIO: dispatch purely on the filename suffix
through `extension_readfunc_map`; an unsupported suffix yields `None`
with a warning.  The txt reader is called with encoding guessing on (its
default); docx/odt readers do not touch the encoding state. -/
def read_file (st : SCAIOState) (fs : FileSystem) (codec : Codec) (zip : ZipLib)
    (xml : XmlLib) (path : String) : Outcome (Option String) × SCAIOState × List LogEntry :=
  let extension := suffix path
  if SUPPORTED_EXTENSIONS.contains extension = false then
    (.ok none, st, [⟨.warning, "[SCAIO] " ++ path ++ " is of unsupported filetype. Skipping."⟩])
  else if extension = "txt" then
    read_txt st fs codec path true
  else if extension = "docx" then
    let (r, logs) := read_docx fs zip xml path
    (r.map some, st, logs)
  else
    let (r, logs) := read_odt fs zip xml path
    (r.map some, st, logs)

/-- Effect of a successful `open(p, "w")` immediately closed: the file is
truncated to zero bytes.  (The modification-time update is not
modelled; no claim depends on it.) -/
def FileSystem.truncate (fs : FileSystem) (p : String) : FileSystem :=
  { fs with
    getsize := fun q => if q = p then 0 else fs.getsize q,
    readBytes := fun q => if q = p then some [] else fs.readBytes q }

/-- Classmethod `is_writable` of SCAIO: a nonexistent path is writable;
otherwise probe with `open(filename, "w")`, answering `(False, message)`
on `PermissionError` and `(True, None)` on success.  The probe's
filesystem effect (truncation on success) is returned alongside. -/
def is_writable (fs : FileSystem) (filename : String) :
    SCAProcedureResult × FileSystem :=
  if fs.pathExists filename = false then ((true, none), fs)
  else
    match fs.openW filename with
    | .permissionError =>
      ((false, some
        ("PermissionError: can not write to " ++ filename ++ ", because it is already in use" ++
          " by another process.\n\n1. Ensure that \x7bfilename\x7d is closed, or \n2." ++
          " Specify another output filename through the `-o` option, e.g. nsca" ++
          " input.txt -o " ++ pyReplace filename ".csv" "-2.csv")),
        fs)
    | .ok => ((true, none), fs.truncate filename)

/-- Classmethod `has_valid_cache` of SCAIO: `False` when the cache path
does not exist; otherwise compute `getsize(cache) > 0` and
`getmtime(cache) > getmtime(file)` (in that evaluation order, each call
raising `FileNotFoundError` on a missing path) and return their
conjunction. -/
def has_valid_cache (fs : FileSystem) (file_path cache_path : String) : Outcome Bool :=
  let is_exist := fs.pathExists cache_path
  if is_exist then
    match os_path_getsize fs cache_path with
    | .error e => .raised e
    | .ok size =>
      match os_path_getmtime fs cache_path with
      | .error e => .raised e
      | .ok cache_mtime =>
        match os_path_getmtime fs file_path with
        | .error e => .raised e
        | .ok file_mtime => .ok (size > 0 && cache_mtime > file_mtime)
  else .ok false

/-- The per-spec loop of `get_verified_ifile_list`: an existing regular
file is kept when its suffix is supported and skipped with a warning
otherwise; an existing directory contributes its globbed children that
are supported regular files; otherwise a nonempty glob expansion is
included as-is (no filtering); otherwise the call logs a critical message
and exits with status 1 (processing no further spec). -/
def verified_loop (fs : FileSystem) : List String → Outcome (List String) × List LogEntry
  | [] => (.ok [], [])
  | path :: rest =>
    if fs.isFile path then
      if SUPPORTED_EXTENSIONS.contains (suffix path) = false then
        let (r, logs) := verified_loop fs rest
        (r, ⟨.warning, "[SCAIO] " ++ path ++ " is of unsupported filetype. Skipping."⟩ :: logs)
      else
        let (r, logs) := verified_loop fs rest
        (r.map (path :: ·), ⟨.debug, "[SCAIO] Adding " ++ path ++ " to input file list"⟩ :: logs)
    else if fs.isDir path then
      let expansion := (fs.glob (path ++ os_path_sep ++ "*")).filter
        (fun p => fs.isFile p && SUPPORTED_EXTENSIONS.contains (suffix p))
      let (r, logs) := verified_loop fs rest
      (r.map (expansion ++ ·), logs)
    else if !(fs.glob path).isEmpty then
      let (r, logs) := verified_loop fs rest
      (r.map (fs.glob path ++ ·), logs)
    else
      (.exit 1, [⟨.critical, "No such file as\n\n" ++ path⟩])

/-- The `if IS_WINDOWS` post-filter of `get_verified_ifile_list`: on the
Windows platform, drop Word lock files (paths ending in `.docx` whose
basename starts with `~`); elsewhere keep the list unchanged. -/
def windowsFilter (IS_WINDOWS : Bool) (l : List String) : List String :=
  if IS_WINDOWS then
    l.filter (fun path => !(pyEndsWith path ".docx" && pyStartsWith (os_path_basename path) "~"))
  else l

/-- Method `get_verified_ifile_list` of SCAIO: run the per-spec loop,
apply the Windows lock-file post-filter, and return the accumulated paths
as a set.  The platform flag `IS_WINDOWS` (imported from
`neosca_gui.ng_platform_info`, not part of the sources; per the spec, a
boolean saying whether this is the Windows platform) is passed as an
argument. -/
def get_verified_ifile_list (fs : FileSystem) (IS_WINDOWS : Bool)
    (ifile_list : List String) : Outcome (Finset String) × List LogEntry :=
  let (r, logs) := verified_loop fs ifile_list
  match r with
  | .ok verified_ifile_list => (.ok (windowsFilter IS_WINDOWS verified_ifile_list).toFinset, logs)
  | .exit n => (.exit n, logs)
  | .raised e => (.raised e, logs)

/-- Contribution of one resolvable spec to the list accumulated by
`verified_loop` (used to state order-independence of the verifier). -/
def specContrib (fs : FileSystem) (path : String) : List String :=
  if fs.isFile path then
    if SUPPORTED_EXTENSIONS.contains (suffix path) = false then [] else [path]
  else if fs.isDir path then
    (fs.glob (path ++ os_path_sep ++ "*")).filter
      (fun p => fs.isFile p && SUPPORTED_EXTENSIONS.contains (suffix p))
  else fs.glob path

/-- A spec resolves when it is an existing file, an existing directory,
or a nonempty glob (the three non-fatal branches of the verifier). -/
def resolvable (fs : FileSystem) (path : String) : Bool :=
  fs.isFile path || fs.isDir path || !(fs.glob path).isEmpty

/-- Batch driver modelling the collaborator of the ingestion layer: read
each plain-text file in turn with `read_txt` (guessing on), threading the
encoding state and concatenating logs; a `sys.exit` or a propagating
exception ends the batch. -/
def read_txt_batch (st : SCAIOState) (fs : FileSystem) (codec : Codec) :
    List String → List (Outcome (Option String)) × SCAIOState × List LogEntry
  | [] => ([], st, [])
  | p :: ps =>
    match read_txt st fs codec p true with
    | (.ok r, st1, logs1) =>
      let (rs, st2, logs2) := read_txt_batch st1 fs codec ps
      (.ok r :: rs, st2, logs1 ++ logs2)
    | (.exit n, st1, logs1) => ([.exit n], st1, logs1)
    | (.raised e, st1, logs1) => ([.raised e], st1, logs1)

/-- Number of charset-detection passes visible in a log: `read_txt` logs
this exact message once per call to `charset_normalizer.detect` and
nowhere else. -/
def detectionCount (logs : List LogEntry) : Nat :=
  logs.countP (fun e => e.msg = "Guessing the encoding of the byte string...")

/-!
Concrete filesystems, codecs and libraries used to witness the theorems
below on explicit inputs.
-/

/-- A filesystem with nothing in it. -/
def emptyFS : FileSystem :=
  { isFile := fun _ => false, isDir := fun _ => false, pathExists := fun _ => false,
    glob := fun _ => [], getsize := fun _ => 0, getmtime := fun _ => 0,
    readBytes := fun _ => none, openW := fun _ => .ok }

/-- A codec for which every decode and every detection fails. -/
def codec0 : Codec := { decode := fun _ _ => none, detect := fun _ => none }

/-- A zip library for which every member read fails. -/
def zip0 : ZipLib := { read := fun _ _ => .error .badZipOrKeyError }

/-- An XML library for which every parse fails. -/
def xml0 : XmlLib := { fromstring := fun _ => .error .xmlParseError }

/-!
Claim C3 — `has_valid_cache`.
-/

/-- A filesystem in which only the cache file `c.pkl` exists (its source
is gone), with a nonzero size and some modification time. -/
def fsC3 : FileSystem :=
  { emptyFS with
    pathExists := fun p => p = "c.pkl",
    getsize := fun _ => 5,
    getmtime := fun _ => 7 }

/-- Refutes C3 as stated: with the cache file present but the source file
missing, `has_valid_cache` raises `FileNotFoundError` (from
`os.path.getmtime` on the source) instead of short-circuiting to a false
return, contradicting the claim's "any missing file (cache or source)
short-circuits to a false return, without raising an exception". -/
theorem C3_counterexample :
    fsC3.pathExists "c.pkl" = true ∧ fsC3.pathExists "src.txt" = false ∧
    has_valid_cache fsC3 "src.txt" "c.pkl" = .raised .fileNotFoundError := by
  decide

/-- C3 amended: `has_valid_cache` returns false without an exception when
the cache path is missing (the cold-cache case); when both cache and
source exist it returns true iff the cache is nonempty and strictly newer
than the source; but when the cache exists and the source is missing, the
`getmtime` call on the source raises `FileNotFoundError`. -/
theorem C3_has_valid_cache_characterization (fs : FileSystem) (s c : String) :
    (fs.pathExists c = false → has_valid_cache fs s c = .ok false) ∧
    (fs.pathExists c = true → fs.pathExists s = true →
      (has_valid_cache fs s c = .ok true ↔
        0 < fs.getsize c ∧ fs.getmtime s < fs.getmtime c)) ∧
    (fs.pathExists c = true → fs.pathExists s = false →
      has_valid_cache fs s c = .raised .fileNotFoundError) := by
  refine ⟨fun h => by simp [has_valid_cache, h], fun h1 h2 => ?_,
    fun h1 h2 => by simp [has_valid_cache, os_path_getsize, os_path_getmtime, h1, h2]⟩
  simp [has_valid_cache, os_path_getsize, os_path_getmtime, h1, h2]

/-- A filesystem in which the source `s.txt` and a nonempty cache `c.pkl`
both exist, the cache strictly newer. -/
def fsC3v : FileSystem :=
  { emptyFS with
    pathExists := fun p => p = "c.pkl" || p = "s.txt",
    getsize := fun _ => 5,
    getmtime := fun p => if p = "c.pkl" then 11 else 10 }

/-- Witness for `C3_has_valid_cache_characterization` on concrete
filesystems: a missing cache gives false, a fresh nonempty cache gives
true, a cache without its source raises. -/
theorem C3_witness :
    has_valid_cache fsC3v "s.txt" "nocache.pkl" = .ok false ∧
    (has_valid_cache fsC3v "s.txt" "c.pkl" = .ok true ↔
      0 < fsC3v.getsize "c.pkl" ∧ fsC3v.getmtime "s.txt" < fsC3v.getmtime "c.pkl") ∧
    has_valid_cache fsC3 "src.txt" "c.pkl" = .raised .fileNotFoundError :=
  ⟨(C3_has_valid_cache_characterization fsC3v "s.txt" "nocache.pkl").1 (by decide),
   (C3_has_valid_cache_characterization fsC3v "s.txt" "c.pkl").2.1 (by decide) (by decide),
   (C3_has_valid_cache_characterization fsC3 "src.txt" "c.pkl").2.2 (by decide) (by decide)⟩

/-!
Claim C4 — `read_file` on an unsupported extension.
-/

/-- C4: for every path whose suffix is not a supported extension,
`read_file` returns `None`, leaves the encoding state untouched, logs
exactly one warning, and neither raises nor exits. -/
theorem C4_read_file_unsupported (st : SCAIOState) (fs : FileSystem) (codec : Codec)
    (zip : ZipLib) (xml : XmlLib) (p : String)
    (h : SUPPORTED_EXTENSIONS.contains (suffix p) = false) :
    read_file st fs codec zip xml p =
      (.ok none, st,
        [⟨.warning, "[SCAIO] " ++ p ++ " is of unsupported filetype. Skipping."⟩]) := by
  simp only [read_file]
  rw [if_pos h]

/-- Witness for `C4_read_file_unsupported` at the path `a.pdf`. -/
theorem C4_witness :
    SUPPORTED_EXTENSIONS.contains (suffix "a.pdf") = false ∧
    read_file SCAIOState.init emptyFS codec0 zip0 xml0 "a.pdf" =
      (.ok none, SCAIOState.init,
        [⟨.warning, "[SCAIO] a.pdf is of unsupported filetype. Skipping."⟩]) :=
  ⟨by decide, C4_read_file_unsupported SCAIOState.init emptyFS codec0 zip0 xml0 "a.pdf" (by decide)⟩

/-!
Claim C7 — `is_writable` contract.
-/

/-- C7: a nonexistent path is reported writable with no message; an
existing path whose write probe raises `PermissionError` is reported not
writable with a message that contains the path; an existing path whose
probe succeeds is reported writable with no message. -/
theorem C7_is_writable_spec (fs : FileSystem) (f : String) :
    (fs.pathExists f = false → (is_writable fs f).1 = (true, none)) ∧
    (fs.pathExists f = true → fs.openW f = .permissionError →
      ∃ msg, (is_writable fs f).1 = (false, some msg) ∧ ∃ a b, msg = a ++ f ++ b) ∧
    (fs.pathExists f = true → fs.openW f = .ok → (is_writable fs f).1 = (true, none)) := by
  refine ⟨fun h => by simp [is_writable, h], fun h1 h2 => ?_,
    fun h1 h2 => by simp [is_writable, h1, h2]⟩
  refine ⟨"PermissionError: can not write to " ++ f ++ ", because it is already in use" ++
      " by another process.\n\n1. Ensure that \x7bfilename\x7d is closed, or \n2." ++
      " Specify another output filename through the `-o` option, e.g. nsca" ++
      " input.txt -o " ++ pyReplace f ".csv" "-2.csv",
    by simp [is_writable, h1, h2],
    "PermissionError: can not write to ",
    ", because it is already in use" ++
      " by another process.\n\n1. Ensure that \x7bfilename\x7d is closed, or \n2." ++
      " Specify another output filename through the `-o` option, e.g. nsca" ++
      " input.txt -o " ++ pyReplace f ".csv" "-2.csv",
    by simp [String.append_assoc]⟩

/-- A filesystem in which `out.csv` exists, has nonzero content, and
accepts the write probe. -/
def fsC7 : FileSystem :=
  { emptyFS with
    pathExists := fun p => p = "out.csv",
    getsize := fun _ => 9,
    readBytes := fun _ => some [1, 2],
    openW := fun _ => .ok }

/-- Like `fsC7`, but the write probe raises `PermissionError` (the file
is held open by another process). -/
def fsC7p : FileSystem := { fsC7 with openW := fun _ => .permissionError }

/-- Witness for `C7_is_writable_spec`: all three branches at concrete
filesystems and the path `out.csv`. -/
theorem C7_witness :
    (is_writable fsC7 "other.csv").1 = (true, none) ∧
    (∃ msg, (is_writable fsC7p "out.csv").1 = (false, some msg) ∧
      ∃ a b, msg = a ++ "out.csv" ++ b) ∧
    (is_writable fsC7 "out.csv").1 = (true, none) :=
  ⟨(C7_is_writable_spec fsC7 "other.csv").1 (by decide),
   (C7_is_writable_spec fsC7p "out.csv").2.1 (by decide) (by decide),
   (C7_is_writable_spec fsC7 "out.csv").2.2 (by decide) (by decide)⟩

/-!
Claim C9 — the write probe truncates.
-/

/-- C9: on an existing path whose write probe succeeds, `is_writable`
answers `(true, none)` yet leaves the file truncated to zero bytes — the
prior content is gone. -/
theorem C9_is_writable_truncates (fs : FileSystem) (f : String)
    (h1 : fs.pathExists f = true) (h2 : fs.openW f = .ok) :
    (is_writable fs f).1 = (true, none) ∧
    ((is_writable fs f).2).getsize f = 0 ∧
    ((is_writable fs f).2).readBytes f = some [] := by
  simp [is_writable, h1, h2, FileSystem.truncate]

/-- Witness for `C9_is_writable_truncates`: `out.csv` holds two bytes
before the probe and zero after it. -/
theorem C9_witness :
    fsC7.getsize "out.csv" = 9 ∧ fsC7.readBytes "out.csv" = some [1, 2] ∧
    ((is_writable fsC7 "out.csv").1 = (true, none) ∧
      ((is_writable fsC7 "out.csv").2).getsize "out.csv" = 0 ∧
      ((is_writable fsC7 "out.csv").2).readBytes "out.csv" = some []) :=
  ⟨by decide, by decide, C9_is_writable_truncates fsC7 "out.csv" (by decide) (by decide)⟩

/-!
Claim C10 — the unguarded final decode in `read_txt`.
-/

/-- C10: when the decode with the carried encoding fails, detection
returns a name, and the final decode with the detected name also fails,
`read_txt` raises `UnicodeDecodeError` instead of returning `None` — and
the encoding state has already been overwritten with the detected name,
so the failed read is not atomic on this path. -/
theorem C10_read_txt_nonatomic_raise (st : SCAIOState) (fs : FileSystem) (codec : Codec)
    (p : String) (b : Bytes) (E : String)
    (h1 : fs.readBytes p = some b)
    (h2 : codec.decode (some st.previous_encoding) b = none)
    (h3 : codec.detect b = some E)
    (h4 : codec.decode (some E) b = none) :
    read_txt st fs codec p true =
      (.raised .unicodeDecodeError, ⟨E⟩,
        [⟨.info, "Attempting to read " ++ p ++ " with " ++ st.previous_encoding ++ " encoding..."⟩,
         ⟨.info, "Attempt failed. Reading " ++ p ++ " in binary mode..."⟩,
         ⟨.info, "Guessing the encoding of the byte string..."⟩,
         ⟨.info, "Decoding the byte string with " ++ E ++ " encoding..."⟩]) := by
  simp [read_txt, _read_txt_r, _read_txt_rb, h1, h2, h3, h4]

/-- Bytes that no codec in `codecC10` can decode, but whose detection
reports `gbk`. -/
def bytesC10 : Bytes := [200, 201]

/-- A filesystem holding the single text file `a.txt` with content
`bytesC10`. -/
def fsC10 : FileSystem :=
  { emptyFS with
    isFile := fun p => p = "a.txt",
    pathExists := fun p => p = "a.txt",
    readBytes := fun p => if p = "a.txt" then some bytesC10 else none }

/-- A codec whose detection always answers `gbk` while every decode
fails. -/
def codecC10 : Codec := { decode := fun _ _ => none, detect := fun _ => some "gbk" }

/-- Witness for `C10_read_txt_nonatomic_raise` on `a.txt`: the call
raises and the state ends at `gbk`. -/
theorem C10_witness :
    read_txt SCAIOState.init fsC10 codecC10 "a.txt" true =
      (.raised .unicodeDecodeError, ⟨"gbk"⟩,
        [⟨.info, "Attempting to read a.txt with utf-8 encoding..."⟩,
         ⟨.info, "Attempt failed. Reading a.txt in binary mode..."⟩,
         ⟨.info, "Guessing the encoding of the byte string..."⟩,
         ⟨.info, "Decoding the byte string with gbk encoding..."⟩]) :=
  C10_read_txt_nonatomic_raise SCAIOState.init fsC10 codecC10 "a.txt" bytesC10 "gbk"
    (by decide) (by decide) (by decide) (by decide)

/-!
Claim C2 — behaviour of `read_file` on a path missing at read time.
-/

/-- Refutes C2 as stated: on a missing `.docx` path, `read_file` does not
terminate the process after a critical log — the `FileNotFoundError` from
`zipfile.ZipFile` propagates as an exception, with no log emitted at all
(and likewise for `.odt`), contradicting "for any supported extension
... terminates the process after logging a critical message; no
exception propagated". -/
theorem C2_counterexample :
    emptyFS.readBytes "a.docx" = none ∧
    suffix "a.docx" = "docx" ∧
    read_file SCAIOState.init emptyFS codec0 zip0 xml0 "a.docx" =
      (.raised .fileNotFoundError, SCAIOState.init, []) := by
  decide

/-- C2 amended: only for a `txt` path does `read_file` on a file missing
at read time log a critical message and terminate the process via
`sys.exit(1)`; for a missing `docx` or `odt` path the
`FileNotFoundError` raised when opening the archive propagates to the
caller uncaught (no critical log, no exit). -/
theorem C2_missing_file_by_format (st : SCAIOState) (fs : FileSystem) (codec : Codec)
    (zip : ZipLib) (xml : XmlLib) (p : String) (h : fs.readBytes p = none) :
    (suffix p = "txt" →
      read_file st fs codec zip xml p =
        (.exit 1, st,
          [⟨.info, "Attempting to read " ++ p ++ " with " ++ st.previous_encoding ++
              " encoding..."⟩,
           ⟨.critical, p ++ " does not exist."⟩])) ∧
    (suffix p = "docx" →
      read_file st fs codec zip xml p = (.raised .fileNotFoundError, st, [])) ∧
    (suffix p = "odt" →
      read_file st fs codec zip xml p = (.raised .fileNotFoundError, st, [])) := by
  refine ⟨fun ht => ?_, fun hd => ?_, fun ho => ?_⟩
  · simp [read_file, SUPPORTED_EXTENSIONS, ht, read_txt, _read_txt_r, h]
  · simp [read_file, SUPPORTED_EXTENSIONS, hd, read_docx, h, Outcome.map]
  · simp [read_file, SUPPORTED_EXTENSIONS, ho, read_odt, h, Outcome.map]

/-- Witness for `C2_missing_file_by_format`: the three formats on a
filesystem holding no file at all. -/
theorem C2_witness :
    read_file SCAIOState.init emptyFS codec0 zip0 xml0 "b.txt" =
      (.exit 1, SCAIOState.init,
        [⟨.info, "Attempting to read b.txt with utf-8 encoding..."⟩,
         ⟨.critical, "b.txt does not exist."⟩]) ∧
    read_file SCAIOState.init emptyFS codec0 zip0 xml0 "b.docx" =
      (.raised .fileNotFoundError, SCAIOState.init, []) ∧
    read_file SCAIOState.init emptyFS codec0 zip0 xml0 "b.odt" =
      (.raised .fileNotFoundError, SCAIOState.init, []) :=
  ⟨(C2_missing_file_by_format SCAIOState.init emptyFS codec0 zip0 xml0 "b.txt"
      (by decide)).1 (by decide),
   (C2_missing_file_by_format SCAIOState.init emptyFS codec0 zip0 xml0 "b.docx"
      (by decide)).2.1 (by decide),
   (C2_missing_file_by_format SCAIOState.init emptyFS codec0 zip0 xml0 "b.odt"
      (by decide)).2.2 (by decide)⟩

/-!
Lemmas characterizing `verified_loop` and `get_verified_ifile_list`,
shared by claims C1, C6 and C8.
-/

/-- One step of `verified_loop` on a resolvable spec: the spec's
contribution is prepended to the tail's result. -/
lemma verified_loop_fst_cons_resolvable (fs : FileSystem) (path : String)
    (rest : List String) (hp : resolvable fs path = true) :
    (verified_loop fs (path :: rest)).1 =
      Outcome.map (specContrib fs path ++ ·) (verified_loop fs rest).1 := by
  rcases hr : verified_loop fs rest with ⟨r, logs⟩
  by_cases h1 : fs.isFile path = true
  · by_cases h2 : SUPPORTED_EXTENSIONS.contains (suffix path) = false
    · simp only [verified_loop, hr]
      rw [if_pos h1, if_pos h2]
      simp only [specContrib, if_pos h1, if_pos h2]
      cases r <;> simp [Outcome.map]
    · simp only [verified_loop, hr]
      rw [if_pos h1, if_neg h2]
      simp only [specContrib, if_pos h1, if_neg h2]
      cases r <;> simp [Outcome.map]
  · by_cases h3 : fs.isDir path = true
    · simp only [verified_loop, hr]
      rw [if_neg h1, if_pos h3]
      simp only [specContrib, if_neg h1, if_pos h3]
    · have h4 : ¬((fs.glob path).isEmpty = true) := by
        simp only [resolvable, Bool.or_eq_true] at hp
        rcases hp with (hp | hp) | hp
        · exact absurd hp h1
        · exact absurd hp h3
        · simpa using hp
      simp only [verified_loop, hr]
      rw [if_neg h1, if_neg h3, if_pos (by simpa using h4)]
      simp only [specContrib, if_neg h1, if_neg h3]

/-- One step of `verified_loop` on an unresolvable spec: immediate
`exit 1`. -/
lemma verified_loop_fst_cons_unresolvable (fs : FileSystem) (path : String)
    (rest : List String) (hp : resolvable fs path = false) :
    (verified_loop fs (path :: rest)).1 = .exit 1 := by
  have h1 : ¬(fs.isFile path = true) := by
    simp only [resolvable, Bool.or_eq_false_iff] at hp
    simp [hp.1.1]
  have h3 : ¬(fs.isDir path = true) := by
    simp only [resolvable, Bool.or_eq_false_iff] at hp
    simp [hp.1.2]
  have h4 : ¬((!(fs.glob path).isEmpty) = true) := by
    simp only [resolvable, Bool.or_eq_false_iff] at hp
    simp [hp.2]
  simp only [verified_loop]
  rw [if_neg h1, if_neg h3, if_neg h4]

/-- The first component of `verified_loop`: success with the
concatenated per-spec contributions when every spec resolves, `exit 1`
otherwise. -/
lemma verified_loop_fst (fs : FileSystem) (l : List String) :
    (verified_loop fs l).1 =
      if l.all (resolvable fs) = true then .ok (l.flatMap (specContrib fs))
      else .exit 1 := by
  induction l with
  | nil => simp [verified_loop]
  | cons path rest ih =>
    by_cases hp : resolvable fs path = true
    · rw [verified_loop_fst_cons_resolvable fs path rest hp, ih,
        show (path :: rest).all (resolvable fs) = (resolvable fs path && rest.all (resolvable fs))
          from rfl, hp, Bool.true_and]
      by_cases hall : rest.all (resolvable fs) = true
      · rw [if_pos hall, if_pos hall]
        simp [Outcome.map]
      · rw [if_neg hall, if_neg hall]
        simp [Outcome.map]
    · have hp' : resolvable fs path = false := by
        cases hres : resolvable fs path
        · rfl
        · exact absurd hres hp
      rw [verified_loop_fst_cons_unresolvable fs path rest hp',
        show (path :: rest).all (resolvable fs) = (resolvable fs path && rest.all (resolvable fs))
          from rfl, hp', Bool.false_and]
      simp

/-- A log entry emitted while processing the tail is still present after
prepending a resolvable spec. -/
lemma verified_loop_logs_cons (fs : FileSystem) (path : String) (rest : List String)
    (hp : resolvable fs path = true) :
    ∀ e ∈ (verified_loop fs rest).2, e ∈ (verified_loop fs (path :: rest)).2 := by
  intro e he
  rcases hr : verified_loop fs rest with ⟨r, logs⟩
  rw [hr] at he
  by_cases h1 : fs.isFile path = true
  · by_cases h2 : SUPPORTED_EXTENSIONS.contains (suffix path) = false
    · simp only [verified_loop, hr]
      rw [if_pos h1, if_pos h2]
      simpa using Or.inr he
    · simp only [verified_loop, hr]
      rw [if_pos h1, if_neg h2]
      simpa using Or.inr he
  · by_cases h3 : fs.isDir path = true
    · simp only [verified_loop, hr]
      rw [if_neg h1, if_pos h3]
      simpa using he
    · have h4 : ¬((fs.glob path).isEmpty = true) := by
        simp only [resolvable, Bool.or_eq_true] at hp
        rcases hp with (hp | hp) | hp
        · exact absurd hp h1
        · exact absurd hp h3
        · simpa using hp
      simp only [verified_loop, hr]
      rw [if_neg h1, if_neg h3, if_pos (by simpa using h4)]
      simpa using he

/-- When some spec of the list is unresolvable, the verifier loop's log
contains a critical entry. -/
lemma verified_loop_critical (fs : FileSystem) (l : List String) (s : String)
    (hs : s ∈ l) (hns : resolvable fs s = false) :
    ∃ e ∈ (verified_loop fs l).2, e.level = .critical := by
  induction l with
  | nil => cases hs
  | cons path rest ih =>
    by_cases hp : resolvable fs path = true
    · have hs' : s ∈ rest := by
        rcases List.mem_cons.1 hs with rfl | h'
        · rw [hns] at hp; cases hp
        · exact h'
      obtain ⟨e, he, hec⟩ := ih hs'
      exact ⟨e, verified_loop_logs_cons fs path rest hp e he, hec⟩
    · have hp' : resolvable fs path = false := by
        cases hres : resolvable fs path
        · rfl
        · exact absurd hres hp
      have h1 : ¬(fs.isFile path = true) := by
        simp only [resolvable, Bool.or_eq_false_iff] at hp'
        simp [hp'.1.1]
      have h3 : ¬(fs.isDir path = true) := by
        simp only [resolvable, Bool.or_eq_false_iff] at hp'
        simp [hp'.1.2]
      have h4 : ¬((!(fs.glob path).isEmpty) = true) := by
        simp only [resolvable, Bool.or_eq_false_iff] at hp'
        simp [hp'.2]
      refine ⟨⟨.critical, "No such file as\n\n" ++ path⟩, ?_, rfl⟩
      simp only [verified_loop]
      rw [if_neg h1, if_neg h3, if_neg h4]
      simp

/-- First component of `get_verified_ifile_list`: the deduplicated,
Windows-filtered union of contributions on success, `exit 1` otherwise. -/
lemma get_verified_ifile_list_fst (fs : FileSystem) (w : Bool) (l : List String) :
    (get_verified_ifile_list fs w l).1 =
      if l.all (resolvable fs) = true
      then .ok (windowsFilter w (l.flatMap (specContrib fs))).toFinset
      else .exit 1 := by
  have h := verified_loop_fst fs l
  rcases hr : verified_loop fs l with ⟨r, logs⟩
  rw [hr] at h
  by_cases hall : l.all (resolvable fs) = true
  · rw [if_pos hall] at h
    rw [if_pos hall]
    simp only [get_verified_ifile_list, hr] at *
    rw [h]
  · rw [if_neg hall] at h
    rw [if_neg hall]
    simp only [get_verified_ifile_list, hr] at *
    rw [h]

/-- Second component of `get_verified_ifile_list`: exactly the loop's
log. -/
lemma get_verified_ifile_list_snd (fs : FileSystem) (w : Bool) (l : List String) :
    (get_verified_ifile_list fs w l).2 = (verified_loop fs l).2 := by
  rcases hr : verified_loop fs l with ⟨r, logs⟩
  cases r <;> simp [get_verified_ifile_list, hr]

/-- Membership in the Windows lock-file filter. -/
lemma mem_windowsFilter {w : Bool} {l : List String} {x : String} :
    x ∈ windowsFilter w l ↔
      x ∈ l ∧ (w = true →
        (pyEndsWith x ".docx" && pyStartsWith (os_path_basename x) "~") = false) := by
  cases w <;> simp [windowsFilter, List.mem_filter]
  intro _
  constructor
  · rintro (h | h)
    · intro hc
      rw [hc] at h
      cases h
    · exact fun _ => h
  · intro h
    cases he : pyEndsWith x ".docx"
    · exact Or.inl rfl
    · exact Or.inr (h he)

/-!
Claim C1 — the invariant of the verified file set.
-/

/-- A filesystem in which the glob pattern `*.pdf` expands to the regular
file `x.pdf` (unsupported extension) and the directory `d.pdf` (not a
regular file at all). -/
def fsC1 : FileSystem :=
  { emptyFS with
    isFile := fun p => p = "x.pdf",
    pathExists := fun p => p = "x.pdf" || p = "d.pdf",
    isDir := fun p => p = "d.pdf",
    glob := fun p => if p = "*.pdf" then ["x.pdf", "d.pdf"] else [] }

/-- Refutes C1 as stated: a spec handled by the glob branch is included
as-is, so the returned set can contain `x.pdf` (exists but unsupported
extension `pdf`) and `d.pdf` (a directory, not a regular file) — the
call returns without aborting, yet not every member is a supported
regular file. -/
theorem C1_counterexample :
    (get_verified_ifile_list fsC1 false ["*.pdf"]).1 = .ok {"x.pdf", "d.pdf"} ∧
    SUPPORTED_EXTENSIONS.contains (suffix "x.pdf") = false ∧
    fsC1.isFile "d.pdf" = false ∧
    SUPPORTED_EXTENSIONS.contains (suffix "d.pdf") = false := by
  decide

/-- C1 amended: when no input spec falls through to the glob branch —
i.e. every spec names an existing regular file or an existing
directory — every path in the returned set exists as a regular file and
has an extension in `SUPPORTED_EXTENSIONS`; a glob-branch spec
contributes its expansions unchecked, so the invariant does not extend to
them. -/
theorem C1_verified_invariant_no_glob (fs : FileSystem) (w : Bool) (l : List String)
    (S : Finset String)
    (hspecs : ∀ s ∈ l, fs.isFile s = true ∨ fs.isDir s = true)
    (hok : (get_verified_ifile_list fs w l).1 = .ok S) :
    ∀ p ∈ S, fs.isFile p = true ∧ suffix p ∈ SUPPORTED_EXTENSIONS := by
  have hall : l.all (resolvable fs) = true := by
    rw [List.all_eq_true]
    intro s hs
    rcases hspecs s hs with h | h <;> simp [resolvable, h]
  rw [get_verified_ifile_list_fst, if_pos hall] at hok
  obtain rfl : (windowsFilter w (l.flatMap (specContrib fs))).toFinset = S :=
    Outcome.ok.inj hok
  intro p hp
  have hp2 : p ∈ l.flatMap (specContrib fs) :=
    (mem_windowsFilter.1 (List.mem_toFinset.1 hp)).1
  obtain ⟨s, hsl, hpc⟩ := List.mem_flatMap.1 hp2
  by_cases h1 : fs.isFile s = true
  · rw [specContrib, if_pos h1] at hpc
    by_cases h2 : SUPPORTED_EXTENSIONS.contains (suffix s) = false
    · rw [if_pos h2] at hpc
      cases hpc
    · rw [if_neg h2] at hpc
      obtain rfl : p = s := by simpa using hpc
      refine ⟨h1, ?_⟩
      have h2' : SUPPORTED_EXTENSIONS.contains (suffix p) = true := by
        cases hc : SUPPORTED_EXTENSIONS.contains (suffix p)
        · exact absurd hc h2
        · rfl
      simpa using h2'
  · have h3 : fs.isDir s = true := (hspecs s hsl).resolve_left h1
    rw [specContrib, if_neg h1, if_pos h3] at hpc
    obtain ⟨-, hcond⟩ := List.mem_filter.1 hpc
    have hcond' : fs.isFile p = true ∧ suffix p ∈ SUPPORTED_EXTENSIONS := by
      simpa using hcond
    exact hcond'

/-- A filesystem with the file `a.txt` and a directory `d` whose glob
expansion holds a supported file `d/x.txt`, an unsupported file
`d/y.pdf`, and a subdirectory `d/sub`. -/
def fsC8 : FileSystem :=
  { emptyFS with
    isFile := fun p => p = "a.txt" || p = "b.odt" || p = "d/x.txt" || p = "d/y.pdf",
    isDir := fun p => p = "d" || p = "d/sub",
    pathExists := fun p =>
      p = "a.txt" || p = "b.odt" || p = "d/x.txt" || p = "d/y.pdf" || p = "d" || p = "d/sub",
    glob := fun p => if p = "d/*" then ["d/x.txt", "d/y.pdf", "d/sub"] else [] }

/-- Witness for `C1_verified_invariant_no_glob`: the specs
`["a.txt", "d"]` on `fsC8` resolve without the glob branch, and the
members of the result are supported regular files. -/
theorem C1_witness :
    (fsC8.isFile "a.txt" = true ∧ suffix "a.txt" ∈ SUPPORTED_EXTENSIONS) ∧
    (fsC8.isFile "d/x.txt" = true ∧ suffix "d/x.txt" ∈ SUPPORTED_EXTENSIONS) :=
  ⟨C1_verified_invariant_no_glob fsC8 false ["a.txt", "d"] {"a.txt", "d/x.txt"}
      (by decide) (by decide) "a.txt" (by decide),
   C1_verified_invariant_no_glob fsC8 false ["a.txt", "d"] {"a.txt", "d/x.txt"}
      (by decide) (by decide) "d/x.txt" (by decide)⟩

/-!
Claim C6 — an unresolvable spec is fatal.
-/

/-- C6: whenever some input spec names no existing file, no existing
directory, and matches no glob expansion, `get_verified_ifile_list`
terminates the process with `sys.exit(1)` after logging a critical
message — it never returns a (possibly empty or partial) set. -/
theorem C6_unresolvable_spec_fatal (fs : FileSystem) (w : Bool) (l : List String)
    (s : String) (hs : s ∈ l) (h1 : fs.isFile s = false) (h2 : fs.isDir s = false)
    (h3 : fs.glob s = []) :
    (get_verified_ifile_list fs w l).1 = .exit 1 ∧
    ∃ e ∈ (get_verified_ifile_list fs w l).2, e.level = .critical := by
  have hns : resolvable fs s = false := by simp [resolvable, h1, h2, h3]
  have hall : ¬(l.all (resolvable fs) = true) := by
    intro hc
    have := List.all_eq_true.1 hc s hs
    rw [hns] at this
    cases this
  refine ⟨?_, ?_⟩
  · rw [get_verified_ifile_list_fst, if_neg hall]
  · rw [get_verified_ifile_list_snd]
    exact verified_loop_critical fs l s hs hns

/-- Witness for `C6_unresolvable_spec_fatal`: verifying
`["/no/such/path"]` on the empty filesystem exits with a critical log. -/
theorem C6_witness :
    (get_verified_ifile_list emptyFS false ["/no/such/path"]).1 = .exit 1 ∧
    ∃ e ∈ (get_verified_ifile_list emptyFS false ["/no/such/path"]).2,
      e.level = .critical :=
  C6_unresolvable_spec_fatal emptyFS false ["/no/such/path"] "/no/such/path"
    (by decide) (by decide) (by decide) (by decide)

/-!
Claim C8 — algebra of the verifier.
-/

/-- The supported regular files among a directory's globbed children —
exactly the expansion used by the verifier's directory branch. -/
def dirSupportedFiles (fs : FileSystem) (d : String) : List String :=
  (fs.glob (d ++ os_path_sep ++ "*")).filter
    (fun p => fs.isFile p && SUPPORTED_EXTENSIONS.contains (suffix p))

/-- A list of supported regular files contributes itself to the
verifier's accumulation. -/
lemma flatMap_specContrib_of_files (fs : FileSystem) (l : List String)
    (h : ∀ p ∈ l, fs.isFile p = true ∧ SUPPORTED_EXTENSIONS.contains (suffix p) = true) :
    l.flatMap (specContrib fs) = l := by
  induction l with
  | nil => simp
  | cons p ps ih =>
    obtain ⟨h1, h2⟩ := h p (List.mem_cons_self p ps)
    rw [List.flatMap_cons, specContrib, if_pos h1,
      if_neg (by rw [h2]; simp : ¬(SUPPORTED_EXTENSIONS.contains (suffix p) = false)),
      ih (fun q hq => h q (List.mem_cons_of_mem p hq))]
    rfl

/-- C8: the verifier's output is governed by set semantics.  First, a
path given twice as a spec collapses to a one-element result set.
Second, permuting the input specs cannot change a successful result set.
Third, verifying a directory spec yields the same result as verifying
the list of that directory's supported files. -/
theorem C8_verifier_algebra :
    (∀ (fs : FileSystem) (w : Bool) (a : String),
      fs.isFile a = true →
      SUPPORTED_EXTENSIONS.contains (suffix a) = true →
      (pyEndsWith a ".docx" && pyStartsWith (os_path_basename a) "~") = false →
      ∃ S : Finset String, (get_verified_ifile_list fs w [a, a]).1 = .ok S ∧
        S = {a} ∧ S.card = 1) ∧
    (∀ (fs : FileSystem) (w : Bool) (l₁ l₂ : List String) (S₁ S₂ : Finset String),
      l₁.Perm l₂ →
      (get_verified_ifile_list fs w l₁).1 = .ok S₁ →
      (get_verified_ifile_list fs w l₂).1 = .ok S₂ →
      S₁ = S₂) ∧
    (∀ (fs : FileSystem) (w : Bool) (d : String),
      fs.isFile d = false → fs.isDir d = true →
      (get_verified_ifile_list fs w [d]).1 =
        (get_verified_ifile_list fs w (dirSupportedFiles fs d)).1) := by
  refine ⟨?_, ?_, ?_⟩
  · intro fs w a h1 h2 hlock
    have hall : ([a, a] : List String).all (resolvable fs) = true := by
      simp [resolvable, h1]
    refine ⟨{a}, ?_, rfl, Finset.card_singleton a⟩
    rw [get_verified_ifile_list_fst, if_pos hall]
    have hflat : ([a, a] : List String).flatMap (specContrib fs) = [a, a] :=
      flatMap_specContrib_of_files fs [a, a] (by
        intro p hp
        have : p = a := by
          rcases List.mem_cons.1 hp with rfl | hp'
          · rfl
          · simpa using hp'
        subst this
        exact ⟨h1, h2⟩)
    rw [hflat]
    cases w
    · simp [windowsFilter]
    · have hor : pyEndsWith a ".docx" = false ∨ pyStartsWith (os_path_basename a) "~" = false := by
        cases he : pyEndsWith a ".docx"
        · exact Or.inl rfl
        · exact Or.inr (by simpa [he] using hlock)
      simp [windowsFilter, List.filter_cons, hor]
  · intro fs w l₁ l₂ S₁ S₂ hperm h1 h2
    rw [get_verified_ifile_list_fst] at h1 h2
    by_cases ha1 : l₁.all (resolvable fs) = true
    · have ha2 : l₂.all (resolvable fs) = true := by
        rw [List.all_eq_true] at ha1 ⊢
        intro x hx
        exact ha1 x (hperm.mem_iff.2 hx)
      rw [if_pos ha1] at h1
      rw [if_pos ha2] at h2
      obtain rfl : (windowsFilter w (l₁.flatMap (specContrib fs))).toFinset = S₁ :=
        Outcome.ok.inj h1
      obtain rfl : (windowsFilter w (l₂.flatMap (specContrib fs))).toFinset = S₂ :=
        Outcome.ok.inj h2
      ext x
      simp only [List.mem_toFinset, mem_windowsFilter, List.mem_flatMap]
      constructor
      · rintro ⟨⟨s, hsl, hx⟩, hk⟩
        exact ⟨⟨s, hperm.mem_iff.1 hsl, hx⟩, hk⟩
      · rintro ⟨⟨s, hsl, hx⟩, hk⟩
        exact ⟨⟨s, hperm.mem_iff.2 hsl, hx⟩, hk⟩
    · rw [if_neg ha1] at h1
      cases h1
  · intro fs w d h1 h2
    have hfiles : ∀ p ∈ dirSupportedFiles fs d,
        fs.isFile p = true ∧ SUPPORTED_EXTENSIONS.contains (suffix p) = true := by
      intro p hp
      have hcond := (List.mem_filter.1 hp).2
      constructor
      · have : fs.isFile p = true ∧ suffix p ∈ SUPPORTED_EXTENSIONS := by simpa using hcond
        exact this.1
      · have : fs.isFile p = true ∧ suffix p ∈ SUPPORTED_EXTENSIONS := by simpa using hcond
        simpa using this.2
    have hallL : ([d] : List String).all (resolvable fs) = true := by
      simp [resolvable, h2]
    have hallR : (dirSupportedFiles fs d).all (resolvable fs) = true := by
      rw [List.all_eq_true]
      intro p hp
      simp [resolvable, (hfiles p hp).1]
    rw [get_verified_ifile_list_fst, get_verified_ifile_list_fst,
      if_pos hallL, if_pos hallR,
      flatMap_specContrib_of_files fs (dirSupportedFiles fs d) hfiles]
    have hL : ([d] : List String).flatMap (specContrib fs) = dirSupportedFiles fs d := by
      rw [List.flatMap_cons, List.flatMap_nil, List.append_nil, specContrib,
        if_neg (by simp [h1]), if_pos h2]
      rfl
    rw [hL]

/-- Witness for `C8_verifier_algebra`: the duplicate-spec, permutation
and directory-expansion parts on the concrete filesystem `fsC8`. -/
theorem C8_witness :
    (∃ S : Finset String, (get_verified_ifile_list fsC8 false ["a.txt", "a.txt"]).1 = .ok S ∧
      S = {"a.txt"} ∧ S.card = 1) ∧
    ({"a.txt", "b.odt"} : Finset String) = {"b.odt", "a.txt"} ∧
    (get_verified_ifile_list fsC8 false ["d"]).1 =
      (get_verified_ifile_list fsC8 false (dirSupportedFiles fsC8 "d")).1 :=
  ⟨C8_verifier_algebra.1 fsC8 false "a.txt" (by decide) (by decide) (by decide),
   C8_verifier_algebra.2.1 fsC8 false ["a.txt", "b.odt"] ["b.odt", "a.txt"]
     {"a.txt", "b.odt"} {"b.odt", "a.txt"} (by decide) (by decide) (by decide),
   C8_verifier_algebra.2.2 fsC8 false "d" (by decide) (by decide)⟩

/-!
Claim C5 — stickiness of the encoding state.
-/

/-- Two strings with different leading characters differ. -/
lemma ne_of_head (s t : String) (c d : Char) (hs : s.data.head? = some c)
    (ht : t.data.head? = some d) (hne : c ≠ d) : s ≠ t := by
  intro h
  subst h
  rw [hs] at ht
  exact hne (Option.some.inj ht)

/-- The "Attempting to read ..." log line is not the detection log
line. -/
lemma attempting_ne_guess (p e : String) :
    ("Attempting to read " ++ p ++ " with " ++ e ++ " encoding...") ≠
      "Guessing the encoding of the byte string..." :=
  ne_of_head _ _ 'A' 'G' rfl rfl (by decide)

/-- The "Attempt failed. ..." log line is not the detection log line. -/
lemma attempt_failed_ne_guess (p : String) :
    ("Attempt failed. Reading " ++ p ++ " in binary mode...") ≠
      "Guessing the encoding of the byte string..." :=
  ne_of_head _ _ 'A' 'G' rfl rfl (by decide)

/-- The "Decoding the byte string ..." log line is not the detection log
line. -/
lemma decoding_ne_guess (e : String) :
    ("Decoding the byte string with " ++ e ++ " encoding...") ≠
      "Guessing the encoding of the byte string..." :=
  ne_of_head _ _ 'D' 'G' rfl rfl (by decide)

/-- `detectionCount` is additive over concatenated logs. -/
lemma detectionCount_append (l₁ l₂ : List LogEntry) :
    detectionCount (l₁ ++ l₂) = detectionCount l₁ + detectionCount l₂ :=
  List.countP_append _ l₁ l₂

/-- A read that succeeds with the carried encoding: no detection pass
runs, the state is unchanged, and only the "Attempting" line is
logged. -/
lemma read_txt_hit (st : SCAIOState) (fs : FileSystem) (codec : Codec) (p : String)
    (b : Bytes) (s : String) (hb : fs.readBytes p = some b)
    (hd : codec.decode (some st.previous_encoding) b = some s) :
    read_txt st fs codec p true =
      (.ok (some s), st,
        [⟨.info, "Attempting to read " ++ p ++ " with " ++ st.previous_encoding ++
            " encoding..."⟩]) := by
  simp [read_txt, _read_txt_r, hb, hd]

/-- A read that falls back to detection and succeeds: the state becomes
the detected encoding and the four info lines are logged. -/
lemma read_txt_detect_update (st : SCAIOState) (fs : FileSystem) (codec : Codec)
    (p : String) (b : Bytes) (E s : String) (hb : fs.readBytes p = some b)
    (hmiss : codec.decode (some st.previous_encoding) b = none)
    (hdet : codec.detect b = some E) (hd : codec.decode (some E) b = some s) :
    read_txt st fs codec p true =
      (.ok (some s), ⟨E⟩,
        [⟨.info, "Attempting to read " ++ p ++ " with " ++ st.previous_encoding ++
            " encoding..."⟩,
         ⟨.info, "Attempt failed. Reading " ++ p ++ " in binary mode..."⟩,
         ⟨.info, "Guessing the encoding of the byte string..."⟩,
         ⟨.info, "Decoding the byte string with " ++ E ++ " encoding..."⟩]) := by
  simp [read_txt, _read_txt_r, _read_txt_rb, hb, hmiss, hdet, hd]

/-- The detection count of the log of a successful fallback read is
exactly one. -/
lemma detectionCount_first_read (p e1 e2 : String) :
    detectionCount
      [⟨.info, "Attempting to read " ++ p ++ " with " ++ e1 ++ " encoding..."⟩,
       ⟨.info, "Attempt failed. Reading " ++ p ++ " in binary mode..."⟩,
       ⟨.info, "Guessing the encoding of the byte string..."⟩,
       ⟨.info, "Decoding the byte string with " ++ e2 ++ " encoding..."⟩] = 1 := by
  simp [detectionCount, List.countP_cons, attempting_ne_guess p e1,
    attempt_failed_ne_guess p, decoding_ne_guess e2]

/-- Batch reads starting from the carried encoding `E`, when every file
decodes under `E`: no detection pass runs, the state stays `E`, and
every read succeeds. -/
lemma read_txt_batch_steady (fs : FileSystem) (codec : Codec) (E : String)
    (bs : String → Bytes) (ps : List String)
    (hb : ∀ q ∈ ps, fs.readBytes q = some (bs q))
    (hd : ∀ q ∈ ps, (codec.decode (some E) (bs q)).isSome = true) :
    (read_txt_batch ⟨E⟩ fs codec ps).2.1 = ⟨E⟩ ∧
    detectionCount (read_txt_batch ⟨E⟩ fs codec ps).2.2 = 0 ∧
    ∀ r ∈ (read_txt_batch ⟨E⟩ fs codec ps).1, ∃ s, r = .ok (some s) := by
  induction ps with
  | nil => exact ⟨rfl, rfl, by simp [read_txt_batch]⟩
  | cons p ps ih =>
    obtain ⟨s, hs⟩ := Option.isSome_iff_exists.1 (hd p (List.mem_cons_self p ps))
    have hhit := read_txt_hit ⟨E⟩ fs codec p (bs p) s (hb p (List.mem_cons_self p ps)) hs
    obtain ⟨ih1, ih2, ih3⟩ := ih (fun q hq => hb q (List.mem_cons_of_mem p hq))
      (fun q hq => hd q (List.mem_cons_of_mem p hq))
    rcases hrec : read_txt_batch ⟨E⟩ fs codec ps with ⟨rs, st2, logs2⟩
    rw [hrec] at ih1 ih2 ih3
    refine ⟨?_, ?_, ?_⟩
    · simp only [read_txt_batch, hhit, hrec]
      exact ih1
    · simp only [read_txt_batch, hhit, hrec]
      rw [show ([⟨.info, "Attempting to read " ++ p ++ " with " ++
            (⟨E⟩ : SCAIOState).previous_encoding ++ " encoding..."⟩] ++ logs2 :
          List LogEntry) =
          [⟨.info, "Attempting to read " ++ p ++ " with " ++ E ++ " encoding..."⟩] ++ logs2
          from rfl, detectionCount_append]
      rw [ih2]
      simp [detectionCount, attempting_ne_guess p E]
    · simp only [read_txt_batch, hhit, hrec]
      intro r hr
      rcases List.mem_cons.1 hr with rfl | hr'
      · exact ⟨s, rfl⟩
      · exact ih3 r hr'

/-- C5: the encoding state is sticky.  Part one: a plain-text read whose
decode with the carried `previous_encoding` succeeds performs no
detection and leaves the state unchanged.  Part two: a batch of files
that all decode under one encoding `E` (but whose first member does not
decode as utf-8, the initial state) runs detection exactly once — on the
first read — ends with the state holding `E`, and every read succeeds. -/
theorem C5_sticky_encoding :
    (∀ (st : SCAIOState) (fs : FileSystem) (codec : Codec) (p : String) (b : Bytes)
      (s : String),
      fs.readBytes p = some b →
      codec.decode (some st.previous_encoding) b = some s →
      read_txt st fs codec p true =
        (.ok (some s), st,
          [⟨.info, "Attempting to read " ++ p ++ " with " ++ st.previous_encoding ++
              " encoding..."⟩]) ∧
      detectionCount (read_txt st fs codec p true).2.2 = 0) ∧
    (∀ (fs : FileSystem) (codec : Codec) (E : String) (bs : String → Bytes)
      (p : String) (ps : List String),
      (∀ q ∈ p :: ps, fs.readBytes q = some (bs q)) →
      codec.decode (some "utf-8") (bs p) = none →
      codec.detect (bs p) = some E →
      (∀ q ∈ p :: ps, (codec.decode (some E) (bs q)).isSome = true) →
      (read_txt_batch SCAIOState.init fs codec (p :: ps)).2.1 = ⟨E⟩ ∧
      detectionCount (read_txt_batch SCAIOState.init fs codec (p :: ps)).2.2 = 1 ∧
      ∀ r ∈ (read_txt_batch SCAIOState.init fs codec (p :: ps)).1,
        ∃ s, r = .ok (some s)) := by
  constructor
  · intro st fs codec p b s hb hd
    have h := read_txt_hit st fs codec p b s hb hd
    refine ⟨h, ?_⟩
    rw [h]
    simp [detectionCount, attempting_ne_guess p st.previous_encoding]
  · intro fs codec E bs p ps hb hmiss hdet hdec
    obtain ⟨s, hs⟩ := Option.isSome_iff_exists.1 (hdec p (List.mem_cons_self p ps))
    have hfirst := read_txt_detect_update SCAIOState.init fs codec p (bs p) E s
      (hb p (List.mem_cons_self p ps)) hmiss hdet hs
    obtain ⟨st1, cnt0, oks⟩ := read_txt_batch_steady fs codec E bs ps
      (fun q hq => hb q (List.mem_cons_of_mem p hq))
      (fun q hq => hdec q (List.mem_cons_of_mem p hq))
    rcases hrec : read_txt_batch ⟨E⟩ fs codec ps with ⟨rs, st2, logs2⟩
    rw [hrec] at st1 cnt0 oks
    refine ⟨?_, ?_, ?_⟩
    · simp only [read_txt_batch, hfirst, hrec]
      exact st1
    · simp only [read_txt_batch, hfirst, hrec]
      rw [detectionCount_append, cnt0, detectionCount_first_read]
    · simp only [read_txt_batch, hfirst, hrec]
      intro r hr
      rcases List.mem_cons.1 hr with rfl | hr'
      · exact ⟨s, rfl⟩
      · exact oks r hr'

/-- The byte content of the two text files of `fsC5`. -/
def bytesC5 : Bytes := [200, 201]

/-- A filesystem holding two text files `a.txt` and `b.txt`, both with
content `bytesC5`. -/
def fsC5 : FileSystem :=
  { emptyFS with
    isFile := fun p => p = "a.txt" || p = "b.txt",
    pathExists := fun p => p = "a.txt" || p = "b.txt",
    readBytes := fun p => if p = "a.txt" || p = "b.txt" then some bytesC5 else none }

/-- A codec that decodes only under the name `gbk` and always detects
`gbk`. -/
def codecC5 : Codec :=
  { decode := fun e _ => if e = some "gbk" then some "hi" else none,
    detect := fun _ => some "gbk" }

/-- Witness for `C5_sticky_encoding`: both parts on the two-file batch of
`fsC5` with `codecC5`, detection running exactly once. -/
theorem C5_witness :
    (read_txt ⟨"gbk"⟩ fsC5 codecC5 "a.txt" true =
      (.ok (some "hi"), ⟨"gbk"⟩,
        [⟨.info, "Attempting to read " ++ "a.txt" ++ " with " ++
            (⟨"gbk"⟩ : SCAIOState).previous_encoding ++ " encoding..."⟩]) ∧
      detectionCount (read_txt ⟨"gbk"⟩ fsC5 codecC5 "a.txt" true).2.2 = 0) ∧
    ((read_txt_batch SCAIOState.init fsC5 codecC5 ["a.txt", "b.txt"]).2.1 = ⟨"gbk"⟩ ∧
      detectionCount (read_txt_batch SCAIOState.init fsC5 codecC5 ["a.txt", "b.txt"]).2.2 = 1 ∧
      ∀ r ∈ (read_txt_batch SCAIOState.init fsC5 codecC5 ["a.txt", "b.txt"]).1,
        ∃ s, r = .ok (some s)) :=
  ⟨C5_sticky_encoding.1 ⟨"gbk"⟩ fsC5 codecC5 "a.txt" bytesC5 "hi" (by decide) (by decide),
   C5_sticky_encoding.2 fsC5 codecC5 "gbk" (fun _ => bytesC5) "a.txt" ["b.txt"]
     (by decide) (by decide) (by decide) (by decide)⟩
